import Mathlib

/-
Verification of the telecom-site map application's client-side geospatial
logic and error handling.

The development shallowly embeds the relevant TypeScript source:
  * `src/src/components/SiteMap.tsx` — KML parsing (`parseKMLData`),
    coordinate sanitization, the nearest-fiber-point linear scan
    (`findNearestFiberPoints`), path assembly (`getAllPoints`),
    `calculateTotalDistance`, `loadSites` / `loadPoints` /
    `loadFiberRoutes` / `handleDeletePoint` error paths;
  * `src/src/store/notificationStore.ts` — the zustand notification store
    (`fetchNotifications`, `markAsRead`, `createNotification`);
  * the third-party `turf.distance` haversine formula (an external library
    dependency, modelled over ℝ from its published definition), which
    `calculateDistance` / `calculateDistanceFromCoordinates` delegate to.

JavaScript numbers appearing inside GeoJSON coordinate arrays are modelled
by `JsVal` (finite numbers as exact rationals, plus NaN, ±Infinity, and
strings); JS `null`-able fields by `Option`; thrown exceptions by `Except`.
The distance function used by the scan is kept as an explicit parameter of
the scan definitions: the scan's behaviour (candidate extraction, validity
filtering, minimization, bookkeeping) is independent of it, and the
concrete turf implementation is modelled separately over ℝ.
-/

namespace Telecom

/-- Model of a JavaScript value that can occur as one component of a
GeoJSON coordinate array: a finite number (exact rational), `NaN`,
`Infinity`, `-Infinity`, or a string (KML text content that was not
converted to a number upstream). -/
inductive JsVal where
  | num (q : ℚ)
  | nan
  | inf
  | ninf
  | str (s : String)
deriving DecidableEq, Repr

/-- Model of JS `typeof c === 'number'`: `NaN` and the infinities are
numbers, strings are not. -/
def JsVal.isNumberType : JsVal → Bool
  | .num _ => true
  | .nan => true
  | .inf => true
  | .ninf => true
  | .str _ => false

/-- Model of JS `isNaN(c)` restricted to number-typed values (the only
values it is applied to after string conversion in the embedded code). -/
def JsVal.isNaNJs : JsVal → Bool
  | .nan => true
  | _ => false

/-- Model of the combined JS test `!isNaN(c) && isFinite(c)` used by the
sanitization filters in `parseKMLData`. The string case is modelled as
`false`; it is unreachable in the embedded pipeline because every string
is first converted with `parseFloat` (which returns a number or `NaN`),
and the theorems that depend on this take that conversion behaviour as an
explicit hypothesis. -/
def JsVal.isFiniteNumber : JsVal → Bool
  | .num _ => true
  | _ => false

/-- GeoJSON geometry as consumed by `SiteMap.tsx`: the code only inspects
`LineString`, `Point` and `MultiLineString`; every other geometry type is
collapsed into `other` (the source leaves those untouched and extracts no
coordinates from them). -/
inductive Geometry where
  | lineString (coordinates : List (List JsVal))
  | point (coordinates : List JsVal)
  | multiLineString (coordinates : List (List (List JsVal)))
  | other
deriving DecidableEq, Repr

/-- A GeoJSON feature; `geometry` is `none` when the JS field is
null/undefined (the source guards every access with
`feature.geometry && feature.geometry.coordinates`). -/
structure Feature where
  geometry : Option Geometry
deriving DecidableEq, Repr

/-- The GeoJSON object produced by `parseKMLData` (`SiteMap.tsx:54-65`):
a features list plus the optional route name copied into
`properties.name`. -/
structure GeoJson where
  features : List Feature
  name : Option String
deriving DecidableEq, Repr

/-! ### Coordinate sanitization (`parseKMLData`, `SiteMap.tsx:134-168`) -/

/-- Model of `typeof c === 'string' ? parseFloat(c) : c` with `pf`
standing for JS `parseFloat`. -/
def toNumber (pf : String → JsVal) : JsVal → JsVal
  | .str s => pf s
  | v => v

/-- Sanitization of one LineString coordinate list
(`SiteMap.tsx:138-141`): keep array entries of length ≥ 2, convert string
components with `parseFloat`, then keep only coordinates all of whose
components are finite numbers. -/
def sanitizeLine (pf : String → JsVal) (coords : List (List JsVal)) :
    List (List JsVal) :=
  ((coords.filter (fun c => 2 ≤ c.length)).map
      (fun c => c.map (toNumber pf))).filter
    (fun c => c.all JsVal.isFiniteNumber)

/-- Sanitization of a Point coordinate (`SiteMap.tsx:144-148`): convert
string components, drop non-finite components. -/
def sanitizePoint (pf : String → JsVal) (coord : List JsVal) : List JsVal :=
  (coord.map (toNumber pf)).filter JsVal.isFiniteNumber

/-- Sanitization of a geometry (`SiteMap.tsx:136-159`): LineString and
Point coordinates are sanitized; MultiLineString parts are sanitized like
LineStrings and parts left empty are dropped; other geometries are left
untouched. -/
def sanitizeGeometry (pf : String → JsVal) : Geometry → Geometry
  | .lineString cs => .lineString (sanitizeLine pf cs)
  | .point c => .point (sanitizePoint pf c)
  | .multiLineString ls =>
      .multiLineString ((ls.map (sanitizeLine pf)).filter
        (fun l => !l.isEmpty))
  | .other => .other

/-- Sanitization of one feature (`SiteMap.tsx:134-162`): geometries are
sanitized in place; a feature without geometry is returned unchanged. -/
def sanitizeFeature (pf : String → JsVal) (f : Feature) : Feature :=
  { f with geometry := f.geometry.map (sanitizeGeometry pf) }

/-! ### `parseKMLData` (`SiteMap.tsx:89-175`)

The two external library calls (`DOMParser.parseFromString` from
`@xmldom/xmldom` and `toGeoJSON.kml` from `@tmcw/togeojson`) are opaque to
this repository; they are modelled as components of an environment
`KmlEnv`. `Except`'s error case models a thrown exception (caught by the
surrounding `try`/`catch`, which returns `null`). -/

/-- Abstraction of the parsed XML document: the number of `parsererror`
elements and the text content of the first document-level `name` element
(`none` models a missing element / `null` text content, matching
`getElementsByTagName('name')[0]?.textContent || null`). -/
structure XmlDoc where
  parserErrorCount : ℕ
  docName : Option String
deriving DecidableEq, Repr

/-- Abstraction of the object returned by `toGeoJSON.kml`: an optional
features array and an optional pre-existing `properties.name`. -/
structure RawGeo where
  features : Option (List Feature)
  propName : Option String
deriving DecidableEq, Repr

/-- Environment of external-library behaviour that `parseKMLData`
orchestrates: the XML parser (may throw), the KML→GeoJSON converter (may
throw, may return `null`), and JS `parseFloat`. -/
structure KmlEnv where
  parseFromString : String → Except Unit XmlDoc
  kmlToGeoJson : XmlDoc → Except Unit (Option RawGeo)
  parseFloatJs : String → JsVal

/-- Model of JS string truthiness for an optional string: `null`,
`undefined` and the empty string are falsy. -/
def jsTruthyStr : Option String → Bool
  | none => false
  | some s => !s.isEmpty

/-- Shallow embedding of `parseKMLData` (`SiteMap.tsx:89-175`): returns
`none` for empty/whitespace-only input (the source's two-part test
`!kmlString || !kmlString.trim()` is modelled character-wise over the
string's data), XML parser errors
(`parsererror` elements), thrown exceptions, a null conversion result, or
a missing/empty features array; otherwise returns the GeoJSON object with
sanitized features and the document-level route name attached when that
name is truthy. -/
def parseKMLData (env : KmlEnv) (kmlString : String) : Option GeoJson :=
  if kmlString.data.isEmpty || kmlString.data.all Char.isWhitespace then none
  else
    match env.parseFromString kmlString with
    | .error _ => none
    | .ok kmlDoc =>
      if 0 < kmlDoc.parserErrorCount then none
      else
        match env.kmlToGeoJson kmlDoc with
        | .error _ => none
        | .ok none => none
        | .ok (some raw) =>
          let propsName :=
            if jsTruthyStr kmlDoc.docName then kmlDoc.docName
            else raw.propName
          match raw.features with
          | none => none
          | some feats =>
            if feats.isEmpty then none
            else
              some { features := feats.map (sanitizeFeature env.parseFloatJs),
                     name := propsName }

/-! ### Sites, points and loaded fiber routes (`SiteMap.tsx:36-52, 337-368`) -/

/-- A row of the `sites` table as selected by `loadSites`
(`SiteMap.tsx:36-42`): latitude/longitude are nullable numbers. Site
coordinates come from the database as finite numbers, modelled as exact
rationals. -/
structure Site where
  id : String
  name : String
  location : String
  latitude : Option ℚ
  longitude : Option ℚ
deriving DecidableEq, Repr

/-- A manual site point (`SiteMap.tsx:44-50`); its coordinates are
non-nullable. -/
structure Point where
  id : String
  latitude : ℚ
  longitude : ℚ
  description : String
  site_id : String
deriving DecidableEq, Repr

/-- A row of the `fiber_routes` table as used by `loadFiberRoutes`:
`route_data` is the nullable KML text. -/
structure RouteRow where
  id : String
  description : String
  route_data : Option String
deriving DecidableEq, Repr

/-- A fiber route after `loadFiberRoutes` attached the parsed GeoJSON
(`SiteMap.tsx:346-355`). -/
structure LoadedRoute where
  row : RouteRow
  geoJsonData : Option GeoJson
deriving DecidableEq, Repr

/-- Model of the JS truthiness test `site.latitude && site.longitude`
applied to one nullable coordinate: `null` and `0` are falsy. When both
components are truthy, the extracted position is returned as a
`(latitude, longitude)` pair. -/
def sitePos (s : Site) : Option (ℚ × ℚ) :=
  match s.latitude, s.longitude with
  | some la, some ln => if la = 0 ∨ ln = 0 then none else some (la, ln)
  | _, _ => none

/-! ### The nearest-fiber-point scan (`findNearestFiberPoints`,
`SiteMap.tsx:231-289`)

The distance function `d` models `calculateDistanceFromCoordinates`
(which delegates to the external turf library): it receives the site
position and the candidate position, both as `(latitude, longitude)`
pairs, exactly as the source passes `[site.latitude, site.longitude]` and
`[coord[1], coord[0]]`. The scan itself never inspects `d`'s values other
than by `<`-comparison, so it is kept as a parameter; the concrete turf
formula is modelled over ℝ further below. `minDistance` starts at JS
`Infinity`, modelled by `(⊤ : WithTop ℚ)`. -/

/-- Validity test applied to each candidate coordinate
(`SiteMap.tsx:257-261`): an array of length ≥ 2 whose first two
components are number-typed and not `NaN`. (Note the source does not test
finiteness here.) -/
def validCoord : List JsVal → Bool
  | a :: b :: _ =>
      a.isNumberType && b.isNumberType && !a.isNaNJs && !b.isNaNJs
  | _ => false

/-- Numeric value of a coordinate component; non-finite components never
reach the distance computation in any state produced by the loading
pipeline (sanitization removes them), so they are mapped to `0`. -/
def JsVal.toQ : JsVal → ℚ
  | .num q => q
  | _ => 0

/-- The candidate position handed to the distance function:
`[coord[1], coord[0]]`, i.e. `(latitude, longitude)` of a GeoJSON
`[longitude, latitude, ...]` coordinate. -/
def coordPos (c : List JsVal) : ℚ × ℚ :=
  ((c.getD 1 .nan).toQ, (c.getD 0 .nan).toQ)

/-- Distance from a site position to a candidate coordinate, as the scan
computes it (`SiteMap.tsx:264-267`). -/
def coordDist (d : ℚ × ℚ → ℚ × ℚ → ℚ) (sp : ℚ × ℚ) (c : List JsVal) : ℚ :=
  d sp (coordPos c)

/-- Accumulator of the inner scan: `minDistance` (initially `Infinity`)
and `closestPoint` (initially the empty array). -/
structure ScanAcc where
  minDistance : WithTop ℚ
  closestPoint : List JsVal
deriving DecidableEq, Repr

/-- Processing of one candidate coordinate (`SiteMap.tsx:255-273`): skip
invalid coordinates; otherwise compute the distance and update the
accumulator when it is strictly below the current minimum. -/
def stepCoord (d : ℚ × ℚ → ℚ × ℚ → ℚ) (sp : ℚ × ℚ) (acc : ScanAcc)
    (c : List JsVal) : ScanAcc :=
  if validCoord c then
    if (coordDist d sp c : WithTop ℚ) < acc.minDistance then
      ⟨coordDist d sp c, c⟩
    else acc
  else acc

/-- The `coords.forEach` loop over one extracted coordinate list. -/
def scanCoordList (d : ℚ × ℚ → ℚ × ℚ → ℚ) (sp : ℚ × ℚ) (acc : ScanAcc)
    (cs : List (List JsVal)) : ScanAcc :=
  cs.foldl (stepCoord d sp) acc

/-- Coordinate extraction per geometry type (`SiteMap.tsx:243-252`):
LineString coordinates as-is, a Point's coordinate as a singleton list,
a MultiLineString's parts flattened; other/missing geometry yields
nothing. -/
def featureCoords (f : Feature) : List (List JsVal) :=
  match f.geometry with
  | some (.lineString cs) => cs
  | some (.point c) => [c]
  | some (.multiLineString ls) => ls.flatten
  | some .other => []
  | none => []

/-- The `features.forEach` loop over one route (`SiteMap.tsx:240-275`);
a route without parsed GeoJSON contributes nothing. -/
def scanRoute (d : ℚ × ℚ → ℚ × ℚ → ℚ) (sp : ℚ × ℚ) (acc : ScanAcc)
    (r : LoadedRoute) : ScanAcc :=
  match r.geoJsonData with
  | none => acc
  | some g => g.features.foldl (fun a f => scanCoordList d sp a (featureCoords f)) acc

/-- The `fiberRoutes.forEach` loop for one site (`SiteMap.tsx:236-277`),
starting from `minDistance = Infinity`, `closestPoint = []`. -/
def scanRoutes (d : ℚ × ℚ → ℚ × ℚ → ℚ) (sp : ℚ × ℚ)
    (routes : List LoadedRoute) : ScanAcc :=
  routes.foldl (scanRoute d sp) ⟨⊤, []⟩

/-- One recorded nearest-fiber-point entry
(`nearestPoints[site.id] = { point, distance }`). -/
structure NearestEntry where
  point : List JsVal
  distance : WithTop ℚ
deriving DecidableEq, Repr

/-- Shallow embedding of `findNearestFiberPoints`
(`SiteMap.tsx:231-289`): for each site whose latitude and longitude are
truthy, scan every coordinate of every feature of every route and record
the closest valid coordinate together with its distance; a site whose
scan found no valid coordinate (`closestPoint.length > 0` fails) gets no
entry. The result models the `nearestPoints` object as an association
list keyed by site id. -/
def findNearestFiberPoints (d : ℚ × ℚ → ℚ × ℚ → ℚ) (sites : List Site)
    (routes : List LoadedRoute) : List (String × NearestEntry) :=
  sites.filterMap (fun site =>
    match sitePos site with
    | none => none
    | some sp =>
      let acc := scanRoutes d sp routes
      if acc.closestPoint.isEmpty then none
      else some (site.id, ⟨acc.closestPoint, acc.minDistance⟩))

/-- Every coordinate one route contributes to the scan, in scan order. -/
def routeCoords (r : LoadedRoute) : List (List JsVal) :=
  match r.geoJsonData with
  | none => []
  | some g => g.features.flatMap featureCoords

/-- Every coordinate the scan can encounter, in scan order
(routes, then features, then coordinates). -/
def routeCandidates (routes : List LoadedRoute) : List (List JsVal) :=
  routes.flatMap routeCoords

/-- The candidates that pass the scan's validity test. -/
def validCandidates (routes : List LoadedRoute) : List (List JsVal) :=
  (routeCandidates routes).filter validCoord

/-- Invariant of the scan accumulator after the coordinates `seen` have
been processed: either nothing valid was seen and the accumulator still
holds `Infinity` and the empty array, or it holds a valid seen coordinate
whose distance is the recorded minimum and is minimal among all valid
seen coordinates. -/
def GoodAcc (d : ℚ × ℚ → ℚ × ℚ → ℚ) (sp : ℚ × ℚ)
    (seen : List (List JsVal)) (acc : ScanAcc) : Prop :=
  (acc = ⟨⊤, []⟩ ∧ ∀ c ∈ seen, validCoord c = false) ∨
  (∃ c, c ∈ seen ∧ validCoord c = true ∧ acc.closestPoint = c ∧
    acc.minDistance = (coordDist d sp c : WithTop ℚ) ∧
    ∀ c2 ∈ seen, validCoord c2 = true →
      coordDist d sp c ≤ coordDist d sp c2)

/-- Instrumentation of `findNearestFiberPoints` counting how many times
the distance computation at `SiteMap.tsx:264` executes: it mirrors the
scan's nested loops and adds one for every coordinate that passes the
validity test of an eligible site. -/
def countDistanceComputations (sites : List Site)
    (routes : List LoadedRoute) : ℕ :=
  sites.foldl (fun acc site =>
    match sitePos site with
    | none => acc
    | some _ =>
      routes.foldl (fun a r =>
        match r.geoJsonData with
        | none => a
        | some g =>
          g.features.foldl (fun b f =>
            (featureCoords f).foldl
              (fun k c => if validCoord c then k + 1 else k) b) a) acc) 0

/-! ### Path assembly and total path length (`SiteMap.tsx:200-228`) -/

/-- Shallow embedding of `getAllPoints` (`SiteMap.tsx:210-228`): site
positions whose coordinates are truthy, followed by the manual points
when a site is selected. -/
def getAllPoints (sites : List Site) (selectedSite : Option Site)
    (points : List Point) : List (ℚ × ℚ) :=
  sites.filterMap sitePos ++
    (match selectedSite with
     | some _ => points.map (fun p => (p.latitude, p.longitude))
     | none => [])

/-- Shallow embedding of `calculateTotalDistance` (`SiteMap.tsx:200-208`)
with `d` modelling `calculateDistance` on `(latitude, longitude)` pairs:
the `for` loop over `i = 0 .. allPoints.length - 2` accumulating
`d allPoints[i] allPoints[i+1]`. -/
def calculateTotalDistance (d : ℚ × ℚ → ℚ × ℚ → ℚ)
    (allPoints : List (ℚ × ℚ)) : ℚ :=
  (List.range (allPoints.length - 1)).foldl
    (fun total i =>
      total + d (allPoints.getD i (0, 0)) (allPoints.getD (i + 1) (0, 0)))
    0

/-! ### Backend operations and their error paths

Each asynchronous handler of `SiteMap.tsx` and of the notification store
is embedded as a pure function from the backend's response (an `Except`
whose error case models a failed request / thrown error) and the current
component state to an `OpResult`: the new state, the toasts shown, and
the number of backend requests the handler issued. -/

/-- A toast notification shown to the user. -/
inductive Toast where
  | error (msg : String)
  | success (msg : String)
deriving DecidableEq, Repr

/-- The `SiteMap` component state touched by the embedded handlers. -/
structure MapState where
  sites : List Site
  points : List Point
  fiberRoutes : List LoadedRoute
  loading : Bool
deriving DecidableEq, Repr

/-- Result of running one handler: new state, toasts emitted (in order),
and how many backend requests were issued. -/
structure OpResult (σ : Type) where
  newState : σ
  toasts : List Toast
  requests : ℕ
deriving DecidableEq, Repr

/-- Shallow embedding of `loadSites` (`SiteMap.tsx:291-314`): on success
the sites with non-null coordinates are stored; on failure a toast is
shown and the sites are left unchanged; `loading` is cleared in the
`finally` block either way, and exactly one request is made. -/
def loadSitesRun (resp : Except Unit (List Site)) (s : MapState) :
    OpResult MapState :=
  match resp with
  | .ok data =>
      ⟨{ s with
          sites := data.filter
            (fun site => site.latitude.isSome && site.longitude.isSome),
          loading := false },
       [], 1⟩
  | .error _ =>
      ⟨{ s with loading := false }, [Toast.error "Failed to load sites"], 1⟩

/-- Shallow embedding of `loadPoints` (`SiteMap.tsx:316-335`): on success
the points are stored; on failure a toast is shown and the points are
left unchanged. -/
def loadPointsRun (resp : Except Unit (List Point)) (s : MapState) :
    OpResult MapState :=
  match resp with
  | .ok data => ⟨{ s with points := data }, [], 1⟩
  | .error _ => ⟨s, [Toast.error "Failed to load points"], 1⟩

/-- The GeoJSON attached to one fiber-route row
(`SiteMap.tsx:346-355`): `null` when `route_data` is falsy (null or the
empty string), otherwise the result of `parseKMLData`. -/
def routeGeoJson (env : KmlEnv) (r : RouteRow) : Option GeoJson :=
  match r.route_data with
  | none => none
  | some rd => if rd.isEmpty then none else parseKMLData env rd

/-- Shallow embedding of `loadFiberRoutes` (`SiteMap.tsx:337-368`): each
row gets its parsed GeoJSON attached, rows whose GeoJSON is `null` are
filtered out, and the surviving routes are stored; on failure a toast is
shown and the routes are left unchanged. -/
def loadFiberRoutesRun (env : KmlEnv) (resp : Except Unit (List RouteRow))
    (s : MapState) : OpResult MapState :=
  match resp with
  | .ok rows =>
      ⟨{ s with
          fiberRoutes :=
            (rows.map (fun r => LoadedRoute.mk r (routeGeoJson env r))).filter
              (fun lr => lr.geoJsonData.isSome) },
       [], 1⟩
  | .error _ =>
      ⟨s, [Toast.error "Failed to load fiber routes"], 1⟩

/-- Shallow embedding of `handleDeletePoint` (`SiteMap.tsx:400-417`):
nothing happens when the confirmation dialog is declined; on a failed
delete a toast is shown and the points are left unchanged; on success the
point is removed locally and a success toast is shown. -/
def handleDeletePointRun (confirmed : Bool) (pointId : String)
    (resp : Except Unit Unit) (s : MapState) : OpResult MapState :=
  if !confirmed then ⟨s, [], 0⟩
  else
    match resp with
    | .error _ => ⟨s, [Toast.error "Failed to delete point"], 1⟩
    | .ok _ =>
        ⟨{ s with points := s.points.filter (fun p => p.id != pointId) },
         [Toast.success "Point deleted successfully"], 1⟩

/-! ### The notification store (`notificationStore.ts:31-97`) -/

/-- A row of the `notifications` table (`notificationStore.ts:5-13`). -/
structure Notification where
  id : String
  message : String
  created_at : String
  read : Bool
  user_email : String
  site_name : String
  action_type : String
deriving DecidableEq, Repr

/-- Parameters of `createNotification` (`notificationStore.ts:15-20`). -/
structure NotifParams where
  userEmail : String
  siteName : String
  changes : String
  actionType : String
deriving DecidableEq, Repr

/-- The zustand store state (`notificationStore.ts:22-34`).
`unreadCount` is a JS number and is modelled as an integer so that the
non-negativity invariant is a statement, not a typing artifact. -/
structure NotifState where
  notifications : List Notification
  unreadCount : ℤ
  loading : Bool
deriving DecidableEq, Repr

/-- The store's initial state (`notificationStore.ts:32-34`). -/
def initialNotifState : NotifState := ⟨[], 0, false⟩

/-- Shallow embedding of `fetchNotifications`
(`notificationStore.ts:36-54`): `loading` is set first; on failure a
toast is shown and nothing else changes (`loading` stays `true`); on
success the notifications are stored and `unreadCount` becomes the
number of unread ones. -/
def fetchNotificationsRun (resp : Except Unit (List Notification))
    (s : NotifState) : OpResult NotifState :=
  let s1 := { s with loading := true }
  match resp with
  | .error _ =>
      ⟨s1, [Toast.error "Failed to fetch notifications"], 1⟩
  | .ok data =>
      ⟨{ notifications := data,
         unreadCount := ((data.filter (fun n => !n.read)).length : ℤ),
         loading := false },
       [], 1⟩

/-- Shallow embedding of `markAsRead` (`notificationStore.ts:56-73`): on
failure a toast is shown and the handler returns without touching the
state; on success the notification is marked read locally and
`unreadCount` is decremented, clamped at `0` by `Math.max`. -/
def markAsReadRun (id : String) (resp : Except Unit Unit)
    (s : NotifState) : OpResult NotifState :=
  match resp with
  | .error _ =>
      ⟨s, [Toast.error "Failed to mark notification as read"], 1⟩
  | .ok _ =>
      ⟨{ s with
          notifications := s.notifications.map
            (fun n => if n.id = id then { n with read := true } else n),
          unreadCount := max 0 (s.unreadCount - 1) },
       [], 1⟩

/-- The message built by `createNotification`
(`notificationStore.ts:76`). -/
def notifMessage (p : NotifParams) : String :=
  p.userEmail ++ " " ++ p.actionType ++ " site: " ++ p.siteName ++
    ". Changes: " ++ p.changes

/-- Shallow embedding of `createNotification`
(`notificationStore.ts:75-96`): on a failed insert a toast is shown and
nothing else happens; on success a success toast is shown and
`fetchNotifications` runs with its own response. -/
def createNotificationRun (p : NotifParams) (insertResp : Except Unit Unit)
    (fetchResp : Except Unit (List Notification)) (s : NotifState) :
    OpResult NotifState :=
  match insertResp with
  | .error _ =>
      ⟨s, [Toast.error "Failed to create notification"], 1⟩
  | .ok _ =>
      let f := fetchNotificationsRun fetchResp s
      ⟨f.newState,
       Toast.success ("New notification: " ++ notifMessage p) :: f.toasts,
       1 + f.requests⟩

/-- One store operation together with the backend responses it
observes. -/
inductive NotifOp where
  | fetch (resp : Except Unit (List Notification))
  | markRead (id : String) (resp : Except Unit Unit)
  | create (p : NotifParams) (insertResp : Except Unit Unit)
      (fetchResp : Except Unit (List Notification))

/-- State transition of one store operation. -/
def applyNotifOp (s : NotifState) : NotifOp → NotifState
  | .fetch r => (fetchNotificationsRun r s).newState
  | .markRead id r => (markAsReadRun id r s).newState
  | .create p ir fr => (createNotificationRun p ir fr s).newState

/-- Running a sequence of store operations from a state. -/
def runNotifOps (ops : List NotifOp) (s : NotifState) : NotifState :=
  ops.foldl applyNotifOp s

/-! ### The turf distance formula over ℝ
(`turf.distance(from, to, { units: 'kilometers' })`)

`calculateDistance` (`SiteMap.tsx:188-192`) and
`calculateDistanceFromCoordinates` (`SiteMap.tsx:194-198`) delegate to the
external `@turf/turf` library. Its published implementation is the
haversine great-circle formula on a sphere of radius 6371008.8 m:
`dLat = degreesToRadians(to[1]-from[1]); dLon = degreesToRadians(to[0]-from[0]);`
`a = sin(dLat/2)^2 + sin(dLon/2)^2 * cos(lat1) * cos(lat2);`
`radiansToLength(2 * atan2(sqrt(a), sqrt(1-a)), units)`, with
`degreesToRadians(d) = (d % 360) * pi / 180` and the kilometers factor
6371.0088. Floating-point rounding is not modelled: the formula is
embedded over ℝ. -/

/-- JS truncating integer quotient (`Math.trunc(x / y)`), used to model
the JS remainder operator. -/
noncomputable def jsTrunc (q : ℝ) : ℤ :=
  if 0 ≤ q then ⌊q⌋ else ⌈q⌉

/-- The JS remainder operator `x % y`: `x - y * trunc(x / y)` (the result
keeps the sign of `x`). -/
noncomputable def jsRem (x y : ℝ) : ℝ :=
  x - y * (jsTrunc (x / y) : ℝ)

/-- turf's `degreesToRadians`: `(degrees % 360) * pi / 180`. -/
noncomputable def degreesToRadians (degrees : ℝ) : ℝ :=
  jsRem degrees 360 * Real.pi / 180

/-- JS `Math.atan2(y, x)`. -/
noncomputable def atan2 (y x : ℝ) : ℝ :=
  if 0 < x then Real.arctan (y / x)
  else if x < 0 then
    (if 0 ≤ y then Real.arctan (y / x) + Real.pi
     else Real.arctan (y / x) - Real.pi)
  else if 0 < y then Real.pi / 2
  else if y < 0 then -(Real.pi / 2)
  else 0

/-- The haversine term `a` of `turf.distance` for GeoJSON positions
`p = (longitude, latitude)` and `q = (longitude, latitude)`. -/
noncomputable def havA (p q : ℝ × ℝ) : ℝ :=
  Real.sin (degreesToRadians (q.2 - p.2) / 2) ^ 2 +
    Real.sin (degreesToRadians (q.1 - p.1) / 2) ^ 2 *
      Real.cos (degreesToRadians p.2) * Real.cos (degreesToRadians q.2)

/-- `turf.distance` in kilometers on GeoJSON `(longitude, latitude)`
positions: `2 * atan2(sqrt(a), sqrt(1 - a))` radians scaled by the
kilometers earth radius 6371.0088. -/
noncomputable def turfDistance (p q : ℝ × ℝ) : ℝ :=
  2 * atan2 (Real.sqrt (havA p q)) (Real.sqrt (1 - havA p q)) * 6371.0088

/-- Shallow embedding of `calculateDistanceFromCoordinates`
(`SiteMap.tsx:194-198`): the arguments are `[latitude, longitude]` pairs
and are swapped into GeoJSON `(longitude, latitude)` order before calling
`turf.distance`. -/
noncomputable def calculateDistanceFromCoordinatesR (point1 point2 : ℝ × ℝ) : ℝ :=
  turfDistance (point1.2, point1.1) (point2.2, point2.1)

/-- The spherical law-of-cosines term: the cosine of the central angle
between the two positions (`(latitude, longitude)` of each endpoint in
degrees). -/
noncomputable def sphCos (p q : ℝ × ℝ) : ℝ :=
  Real.sin (p.2 * (Real.pi / 180)) * Real.sin (q.2 * (Real.pi / 180)) +
    Real.cos (p.2 * (Real.pi / 180)) * Real.cos (q.2 * (Real.pi / 180)) *
      Real.cos ((q.1 - p.1) * (Real.pi / 180))

/-- Formalization of the spec's words "planar distance approximation": a
planar approximation computes the distance from the displacement vector
in the latitude/longitude chart alone, so it is invariant under
translating both endpoints by the same offset. -/
def IsPlanarApprox (f : ℝ × ℝ → ℝ × ℝ → ℝ) : Prop :=
  ∀ p q r s : ℝ × ℝ,
    q.1 - p.1 = s.1 - r.1 → q.2 - p.2 = s.2 - r.2 → f p q = f r s

/-! ### Output sanity predicates for the sanitized GeoJSON -/

/-- Whether every coordinate component of a geometry's LineString, Point
or MultiLineString coordinates is a finite number, and no MultiLineString
part is empty. Other geometry types carry no checked coordinates. -/
def geomValuesFinite : Geometry → Bool
  | .lineString cs => cs.all (fun c => c.all JsVal.isFiniteNumber)
  | .point c => c.all JsVal.isFiniteNumber
  | .multiLineString ls =>
      ls.all (fun l => !l.isEmpty && l.all (fun c => c.all JsVal.isFiniteNumber))
  | .other => true

/-- Sanity of one feature: its geometry, if present, has only finite
numeric coordinate values and no empty MultiLineString part. -/
def featureSane (f : Feature) : Bool :=
  match f.geometry with
  | none => true
  | some g => geomValuesFinite g

/-- Sanity of a whole GeoJSON object. -/
def geoJsonSane (g : GeoJson) : Bool :=
  g.features.all featureSane

/-! ### Concrete instances used by the witnesses -/

/-- Concrete stand-in distance function for witnesses: squared Euclidean
distance on `(latitude, longitude)` pairs (any function of this type can
instantiate the scan's distance parameter). -/
def dW : ℚ × ℚ → ℚ × ℚ → ℚ :=
  fun p q => (p.1 - q.1) ^ 2 + (p.2 - q.2) ^ 2

/-- Concrete `parseFloat` model for witnesses: every string parses to
`NaN`. -/
def pfW : String → JsVal := fun _ => JsVal.nan

/-- Concrete feature with a LineString mixing valid, string-valued,
`NaN` and non-finite coordinates. -/
def featW : Feature :=
  ⟨some (.lineString
    [[.num 85, .num 27], [.str "x", .num 1], [.num 2, .nan],
     [.num 86, .num 28, .inf]])⟩

/-- Concrete feature list exercising all three sanitized geometry
types. -/
def featsW : List Feature :=
  [featW,
   ⟨some (.multiLineString [[[.num 1, .num 2]], [[.nan, .num 3]]])⟩,
   ⟨some (.point [.num 5, .str "q", .num 6])⟩,
   ⟨none⟩]

/-- Concrete raw conversion result for witnesses. -/
def rawW : RawGeo := ⟨some featsW, none⟩

/-- Concrete parsed XML document for witnesses. -/
def docW : XmlDoc := ⟨0, some "RouteA"⟩

/-- Concrete external-library environment for witnesses. -/
def envW : KmlEnv := ⟨fun _ => .ok docW, fun _ => .ok (some rawW), pfW⟩

/-- The GeoJSON `parseKMLData envW` produces for any non-blank input. -/
def geoW : GeoJson :=
  { features := featsW.map (sanitizeFeature pfW), name := some "RouteA" }

/-- Concrete loaded fiber route for witnesses. -/
def routeW : LoadedRoute := ⟨⟨"r1", "line", some "kml"⟩, some geoW⟩

/-- Concrete site with truthy coordinates for witnesses. -/
def siteW : Site := ⟨"s1", "Site One", "Loc", some 27, some 85⟩

/-- Concrete site whose latitude is exactly `0` (present but falsy). -/
def siteZW : Site := ⟨"s0", "Zero Lat", "Loc", some 0, some 85⟩

/-! ## Theorems -/

/-- C3: every failing backend operation (loading sites, loading site
points, loading fiber routes, deleting a site point, fetching or creating
notifications) surfaces its error as exactly one error toast, issues
exactly one backend request (no retry), and performs no recovery: the
data it would have written is left unchanged. -/
theorem claim_C3 (s : MapState) (ns : NotifState) (pointId : String)
    (p : NotifParams) (env : KmlEnv) (fr : Except Unit (List Notification)) :
    ((loadSitesRun (.error ()) s).toasts = [Toast.error "Failed to load sites"] ∧
      (loadSitesRun (.error ()) s).requests = 1 ∧
      (loadSitesRun (.error ()) s).newState.sites = s.sites) ∧
    ((loadPointsRun (.error ()) s).toasts = [Toast.error "Failed to load points"] ∧
      (loadPointsRun (.error ()) s).requests = 1 ∧
      (loadPointsRun (.error ()) s).newState = s) ∧
    ((loadFiberRoutesRun env (.error ()) s).toasts =
        [Toast.error "Failed to load fiber routes"] ∧
      (loadFiberRoutesRun env (.error ()) s).requests = 1 ∧
      (loadFiberRoutesRun env (.error ()) s).newState = s) ∧
    ((handleDeletePointRun true pointId (.error ()) s).toasts =
        [Toast.error "Failed to delete point"] ∧
      (handleDeletePointRun true pointId (.error ()) s).requests = 1 ∧
      (handleDeletePointRun true pointId (.error ()) s).newState = s) ∧
    ((fetchNotificationsRun (.error ()) ns).toasts =
        [Toast.error "Failed to fetch notifications"] ∧
      (fetchNotificationsRun (.error ()) ns).requests = 1 ∧
      (fetchNotificationsRun (.error ()) ns).newState.notifications =
        ns.notifications ∧
      (fetchNotificationsRun (.error ()) ns).newState.unreadCount =
        ns.unreadCount) ∧
    ((createNotificationRun p (.error ()) fr ns).toasts =
        [Toast.error "Failed to create notification"] ∧
      (createNotificationRun p (.error ()) fr ns).requests = 1 ∧
      (createNotificationRun p (.error ()) fr ns).newState = ns) :=
  ⟨⟨rfl, rfl, rfl⟩, ⟨rfl, rfl, rfl⟩, ⟨rfl, rfl, rfl⟩, ⟨rfl, rfl, rfl⟩,
   ⟨rfl, rfl, rfl, rfl⟩, ⟨rfl, rfl, rfl⟩⟩

lemma unreadCount_nonneg_applyNotifOp (s : NotifState) (op : NotifOp)
    (h : 0 ≤ s.unreadCount) : 0 ≤ (applyNotifOp s op).unreadCount := by
  cases op with
  | fetch r =>
      cases r with
      | error e => simpa [applyNotifOp, fetchNotificationsRun] using h
      | ok data => simp [applyNotifOp, fetchNotificationsRun]
  | markRead id r =>
      cases r with
      | error e => simpa [applyNotifOp, markAsReadRun] using h
      | ok u => simp [applyNotifOp, markAsReadRun]
  | create p ir fr =>
      cases ir with
      | error e => simpa [applyNotifOp, createNotificationRun] using h
      | ok u =>
          cases fr with
          | error e =>
              simpa [applyNotifOp, createNotificationRun,
                fetchNotificationsRun] using h
          | ok data =>
              simp [applyNotifOp, createNotificationRun, fetchNotificationsRun]

lemma unreadCount_nonneg_runNotifOps (ops : List NotifOp) :
    ∀ s : NotifState, 0 ≤ s.unreadCount →
      0 ≤ (runNotifOps ops s).unreadCount := by
  induction ops with
  | nil => intro s h; simpa [runNotifOps] using h
  | cons op rest ih =>
      intro s h
      have := ih (applyNotifOp s op) (unreadCount_nonneg_applyNotifOp s op h)
      simpa [runNotifOps, List.foldl_cons] using this

/-- C10: starting from the store's initial state, `unreadCount` stays
non-negative under every sequence of `fetchNotifications`, `markAsRead`
and `createNotification` operations; a successful fetch sets it to the
number of unread notifications, a successful `markAsRead` decrements it
clamped at `0`, and a failed `markAsRead` leaves the whole store state
unchanged. -/
theorem claim_C10 :
    (∀ ops : List NotifOp, 0 ≤ (runNotifOps ops initialNotifState).unreadCount) ∧
    (∀ (data : List Notification) (ns : NotifState),
      (fetchNotificationsRun (.ok data) ns).newState.unreadCount =
        ((data.filter (fun n => !n.read)).length : ℤ)) ∧
    (∀ (id : String) (ns : NotifState),
      (markAsReadRun id (.ok ()) ns).newState.unreadCount =
        max 0 (ns.unreadCount - 1)) ∧
    (∀ (id : String) (ns : NotifState),
      (markAsReadRun id (.error ()) ns).newState = ns) :=
  ⟨fun ops => unreadCount_nonneg_runNotifOps ops initialNotifState le_rfl,
   fun _ _ => rfl, fun _ _ => rfl, fun _ _ => rfl⟩

lemma foldl_add_map {α : Type} (g : α → ℚ) :
    ∀ (l : List α) (a : ℚ),
      l.foldl (fun t i => t + g i) a = a + (l.map g).sum := by
  intro l
  induction l with
  | nil => intro a; simp
  | cons x xs ih =>
      intro a
      simp only [List.foldl_cons, List.map_cons, List.sum_cons, ih (a + g x)]
      ring

lemma calculateTotalDistance_eq_pairSum (d : ℚ × ℚ → ℚ × ℚ → ℚ) :
    ∀ pts : List (ℚ × ℚ),
      calculateTotalDistance d pts =
        ((pts.zip pts.tail).map (fun pq => d pq.1 pq.2)).sum := by
  intro pts
  induction pts with
  | nil => simp [calculateTotalDistance]
  | cons p tl ih =>
      cases tl with
      | nil => simp [calculateTotalDistance]
      | cons q rest =>
          have hlen : (p :: q :: rest).length - 1 = rest.length + 1 := by
            simp
          rw [calculateTotalDistance, hlen, List.range_succ_eq_map,
            List.foldl_cons, List.foldl_map, foldl_add_map]
          rw [calculateTotalDistance, foldl_add_map] at ih
          simp only [List.length_cons, Nat.add_sub_cancel] at ih
          simp only [List.zip_cons_cons, List.tail_cons, List.map_cons,
            List.sum_cons]
          simp only [List.getD_cons_zero, List.getD_cons_succ, zero_add] at *
          simp only [List.tail_cons] at ih
          rw [ih]

/-- C7: `calculateTotalDistance` returns the sum over consecutive pairs
of the pairwise distance, and returns `0` for lists of zero or one
point. -/
theorem claim_C7 (d : ℚ × ℚ → ℚ × ℚ → ℚ) (pts : List (ℚ × ℚ)) :
    (2 ≤ pts.length →
      calculateTotalDistance d pts =
        ((pts.zip pts.tail).map (fun pq => d pq.1 pq.2)).sum) ∧
    (pts.length ≤ 1 → calculateTotalDistance d pts = 0) := by
  constructor
  · intro _; exact calculateTotalDistance_eq_pairSum d pts
  · intro h
    rw [calculateTotalDistance_eq_pairSum d pts]
    match pts, h with
    | [], _ => simp
    | [p], _ => simp

/-- Witness for C7 at a concrete three-point path. -/
theorem claim_C7_witness :
    calculateTotalDistance dW [((0 : ℚ), (0 : ℚ)), (0, 1), (1, 1)] =
      (([((0 : ℚ), (0 : ℚ)), (0, 1), (1, 1)].zip
          ([((0 : ℚ), (0 : ℚ)), (0, 1), (1, 1)].tail)).map
        (fun pq => dW pq.1 pq.2)).sum :=
  (claim_C7 dW [((0 : ℚ), (0 : ℚ)), (0, 1), (1, 1)]).1 (by decide)

lemma scanCoordList_append (d : ℚ × ℚ → ℚ × ℚ → ℚ) (sp : ℚ × ℚ)
    (acc : ScanAcc) (cs1 cs2 : List (List JsVal)) :
    scanCoordList d sp acc (cs1 ++ cs2) =
      scanCoordList d sp (scanCoordList d sp acc cs1) cs2 := by
  simp [scanCoordList, List.foldl_append]

lemma scanRoute_eq_scanCoordList (d : ℚ × ℚ → ℚ × ℚ → ℚ) (sp : ℚ × ℚ)
    (r : LoadedRoute) : ∀ acc : ScanAcc,
    scanRoute d sp acc r = scanCoordList d sp acc (routeCoords r) := by
  intro acc
  cases hg : r.geoJsonData with
  | none => simp [scanRoute, routeCoords, hg, scanCoordList]
  | some g =>
      simp only [scanRoute, routeCoords, hg]
      induction g.features generalizing acc with
      | nil => simp [scanCoordList]
      | cons f fs ih =>
          simp only [List.foldl_cons, List.flatMap_cons, scanCoordList_append]
          exact ih (scanCoordList d sp acc (featureCoords f))

lemma scanRoutes_eq_scanCoordList (d : ℚ × ℚ → ℚ × ℚ → ℚ) (sp : ℚ × ℚ)
    (routes : List LoadedRoute) :
    scanRoutes d sp routes =
      scanCoordList d sp ⟨⊤, []⟩ (routeCandidates routes) := by
  unfold scanRoutes routeCandidates
  generalize (⟨⊤, []⟩ : ScanAcc) = acc
  induction routes generalizing acc with
  | nil => simp [scanCoordList]
  | cons r rs ih =>
      simp only [List.foldl_cons, List.flatMap_cons, scanCoordList_append,
        scanRoute_eq_scanCoordList]
      exact ih (scanCoordList d sp acc (routeCoords r))

lemma goodAcc_step (d : ℚ × ℚ → ℚ × ℚ → ℚ) (sp : ℚ × ℚ)
    (seen : List (List JsVal)) (acc : ScanAcc) (c : List JsVal)
    (h : GoodAcc d sp seen acc) :
    GoodAcc d sp (seen ++ [c]) (stepCoord d sp acc c) := by
  by_cases hv : validCoord c = true
  · rcases h with ⟨hacc, hall⟩ | ⟨c0, hc0m, hc0v, hcp, hmd, hmin⟩
    · subst hacc
      have hlt : (coordDist d sp c : WithTop ℚ) <
          (⟨⊤, []⟩ : ScanAcc).minDistance := WithTop.coe_lt_top _
      refine Or.inr ⟨c, ?_, hv, ?_, ?_, ?_⟩
      · simp
      · simp [stepCoord, hv, hlt]
      · simp [stepCoord, hv, hlt]
      · intro c2 hc2 hc2v
        rcases List.mem_append.mp hc2 with h2 | h2
        · exact absurd (hall c2 h2) (by simp [hc2v])
        · rw [List.mem_singleton.mp h2]
    · by_cases hlt : coordDist d sp c < coordDist d sp c0
      · have hlt' : (coordDist d sp c : WithTop ℚ) < acc.minDistance := by
          rw [hmd]; exact_mod_cast hlt
        refine Or.inr ⟨c, by simp, hv, ?_, ?_, ?_⟩
        · simp [stepCoord, hv, hlt']
        · simp [stepCoord, hv, hlt']
        · intro c2 hc2 hc2v
          rcases List.mem_append.mp hc2 with h2 | h2
          · exact le_trans hlt.le (hmin c2 h2 hc2v)
          · rw [List.mem_singleton.mp h2]
      · have hlt' : ¬ (coordDist d sp c : WithTop ℚ) < acc.minDistance := by
          rw [hmd]; exact_mod_cast hlt
        refine Or.inr ⟨c0, List.mem_append_left _ hc0m, hc0v, ?_, ?_, ?_⟩
        · simp [stepCoord, hv, hlt', hlt, hcp]
        · simp [stepCoord, hv, hlt', hlt, hmd]
        · intro c2 hc2 hc2v
          rcases List.mem_append.mp hc2 with h2 | h2
          · exact hmin c2 h2 hc2v
          · rw [List.mem_singleton.mp h2]; exact not_lt.mp hlt
  · have hstep : stepCoord d sp acc c = acc := by simp [stepCoord, hv]
    rw [hstep]
    rcases h with ⟨hacc, hall⟩ | ⟨c0, hc0m, hc0v, hcp, hmd, hmin⟩
    · refine Or.inl ⟨hacc, ?_⟩
      intro c2 hc2
      rcases List.mem_append.mp hc2 with h2 | h2
      · exact hall c2 h2
      · rw [List.mem_singleton.mp h2]; simpa using hv
    · refine Or.inr ⟨c0, List.mem_append_left _ hc0m, hc0v, hcp, hmd, ?_⟩
      intro c2 hc2 hc2v
      rcases List.mem_append.mp hc2 with h2 | h2
      · exact hmin c2 h2 hc2v
      · exact absurd hc2v (by rw [List.mem_singleton.mp h2] at hc2v ⊢; simp_all)

lemma goodAcc_scanCoordList (d : ℚ × ℚ → ℚ × ℚ → ℚ) (sp : ℚ × ℚ)
    (cs : List (List JsVal)) : ∀ (seen : List (List JsVal)) (acc : ScanAcc),
    GoodAcc d sp seen acc →
      GoodAcc d sp (seen ++ cs) (scanCoordList d sp acc cs) := by
  induction cs with
  | nil => intro seen acc h; simpa [scanCoordList] using h
  | cons c cs ih =>
      intro seen acc h
      have h1 := goodAcc_step d sp seen acc c h
      have h2 := ih (seen ++ [c]) (stepCoord d sp acc c) h1
      simpa [scanCoordList, List.foldl_cons, List.append_assoc] using h2

lemma goodAcc_scanRoutes (d : ℚ × ℚ → ℚ × ℚ → ℚ) (sp : ℚ × ℚ)
    (routes : List LoadedRoute) :
    GoodAcc d sp (routeCandidates routes) (scanRoutes d sp routes) := by
  have h0 : GoodAcc d sp [] ⟨⊤, []⟩ := Or.inl ⟨rfl, by simp⟩
  have h := goodAcc_scanCoordList d sp (routeCandidates routes) [] _ h0
  rw [scanRoutes_eq_scanCoordList]
  simpa using h

lemma validCoord_ne_nil {c : List JsVal} (h : validCoord c = true) :
    c.isEmpty = false := by
  cases c with
  | nil => simp [validCoord] at h
  | cons a t => simp

lemma findNearest_lookup_none (d : ℚ × ℚ → ℚ × ℚ → ℚ)
    (routes : List LoadedRoute) : ∀ (sites : List Site) (k : String),
    (∀ s2 ∈ sites, s2.id = k → sitePos s2 = none) →
    List.lookup k (findNearestFiberPoints d sites routes) = none := by
  intro sites
  induction sites with
  | nil => intro k _; simp [findNearestFiberPoints]
  | cons s ss ih =>
      intro k hall
      have ih' := ih k (fun s2 hs2 => hall s2 (List.mem_cons_of_mem s hs2))
      cases hsp : sitePos s with
      | none =>
          simp only [findNearestFiberPoints, List.filterMap_cons, hsp]
          exact ih'
      | some sp =>
          have hid : (k == s.id) = false := by
            refine beq_eq_false_iff_ne.mpr ?_
            intro hq
            have := hall s (List.mem_cons_self s ss) hq.symm
            simp [hsp] at this
          cases he : (scanRoutes d sp routes).closestPoint.isEmpty with
          | true =>
              simp only [findNearestFiberPoints, List.filterMap_cons, hsp, he,
                if_true]
              exact ih'
          | false =>
              simp only [findNearestFiberPoints, List.filterMap_cons, hsp, he,
                Bool.false_eq_true, if_false, List.lookup_cons, hid]
              exact ih'

lemma findNearest_lookup_mem (d : ℚ × ℚ → ℚ × ℚ → ℚ)
    (routes : List LoadedRoute) : ∀ (sites : List Site) (site : Site),
    site ∈ sites → (sites.map Site.id).Nodup →
    List.lookup site.id (findNearestFiberPoints d sites routes) =
      (match sitePos site with
       | none => none
       | some sp =>
         if (scanRoutes d sp routes).closestPoint.isEmpty then none
         else some ⟨(scanRoutes d sp routes).closestPoint,
                    (scanRoutes d sp routes).minDistance⟩) := by
  intro sites
  induction sites with
  | nil => intro site h; simp at h
  | cons s ss ih =>
      intro site hmem hnd
      have hnd' : s.id ∉ ss.map Site.id ∧ (ss.map Site.id).Nodup := by
        simpa [List.nodup_cons] using hnd
      rcases List.mem_cons.mp hmem with heq | hmem'
      · subst heq
        have hnotin : ∀ s2 ∈ ss, s2.id = site.id → sitePos s2 = none := by
          intro s2 hs2 hid
          exact absurd (hid ▸ List.mem_map_of_mem Site.id hs2) hnd'.1
        have htail := findNearest_lookup_none d routes ss site.id hnotin
        cases hsp : sitePos site with
        | none =>
            simp only [findNearestFiberPoints, List.filterMap_cons, hsp]
            exact htail
        | some sp =>
            cases he : (scanRoutes d sp routes).closestPoint.isEmpty with
            | true =>
                simp only [findNearestFiberPoints, List.filterMap_cons, hsp, he,
                  if_true]
                exact htail
            | false =>
                simp only [findNearestFiberPoints, List.filterMap_cons, hsp, he,
                  Bool.false_eq_true, if_false, List.lookup_cons, beq_self_eq_true]
      · have hid : (site.id == s.id) = false := by
          refine beq_eq_false_iff_ne.mpr ?_
          intro hq
          exact absurd (hq ▸ List.mem_map_of_mem Site.id hmem') hnd'.1
        have ih' := ih site hmem' hnd'.2
        cases hsp : sitePos s with
        | none =>
            simp only [findNearestFiberPoints, List.filterMap_cons, hsp]
            exact ih'
        | some sp =>
            cases he : (scanRoutes d sp routes).closestPoint.isEmpty with
            | true =>
                simp only [findNearestFiberPoints, List.filterMap_cons, hsp, he,
                  if_true]
                exact ih'
            | false =>
                simp only [findNearestFiberPoints, List.filterMap_cons, hsp, he,
                  Bool.false_eq_true, if_false, List.lookup_cons, hid]
                exact ih'

/-- C1 counterexample: a loaded site whose latitude is present (`0`, the
equator) and whose longitude is present and nonzero gets no
nearest-fiber-point entry although valid route coordinates exist — the
guard tests truthiness, so the claim as stated fails at latitude `0`. -/
theorem claim_C1_counterexample :
    siteZW.latitude.isSome = true ∧ siteZW.longitude.isSome = true ∧
    validCandidates [routeW] ≠ [] ∧
    List.lookup siteZW.id (findNearestFiberPoints dW [siteZW] [routeW]) =
      none := by
  refine ⟨rfl, rfl, by decide, by decide⟩

/-- C1 (amended: "whose latitude and longitude are present and nonzero"):
for every site of the sites list with truthy coordinates, the scan
records an entry exactly when some valid coordinate exists among the
routes' features (LineString coordinates, a Point's single coordinate,
flattened MultiLineString coordinates); the recorded coordinate is such a
valid candidate, the recorded distance is the distance between the site
and the recorded coordinate, and that distance is minimal over all valid
candidates of all routes. -/
theorem claim_C1 (d : ℚ × ℚ → ℚ × ℚ → ℚ) (sites : List Site)
    (routes : List LoadedRoute) (site : Site) (la ln : ℚ)
    (hmem : site ∈ sites) (hnd : (sites.map Site.id).Nodup)
    (hla : site.latitude = some la) (hln : site.longitude = some ln)
    (hla0 : la ≠ 0) (hln0 : ln ≠ 0) :
    (List.lookup site.id (findNearestFiberPoints d sites routes) = none ↔
      validCandidates routes = []) ∧
    (∀ e : NearestEntry,
      List.lookup site.id (findNearestFiberPoints d sites routes) = some e →
        e.point ∈ validCandidates routes ∧
        e.distance = (coordDist d (la, ln) e.point : WithTop ℚ) ∧
        ∀ c ∈ validCandidates routes,
          coordDist d (la, ln) e.point ≤ coordDist d (la, ln) c) := by
  have hsp : sitePos site = some (la, ln) := by
    simp [sitePos, hla, hln, hla0, hln0]
  have hlook := findNearest_lookup_mem d routes sites site hmem hnd
  rw [hsp] at hlook
  dsimp only at hlook
  have hG := goodAcc_scanRoutes d (la, ln) routes
  rcases hG with ⟨hacc, hall⟩ | ⟨c0, hc0m, hc0v, hcp, hmd, hmin⟩
  · rw [hacc] at hlook
    simp only [List.isEmpty_nil, if_true] at hlook
    constructor
    · rw [hlook]
      simp only [true_iff]
      exact List.filter_eq_nil_iff.mpr (fun c hc => by simp [hall c hc])
    · intro e he
      rw [hlook] at he
      exact absurd he (by simp)
  · have hne : (scanRoutes d (la, ln) routes).closestPoint.isEmpty = false := by
      rw [hcp]; exact validCoord_ne_nil hc0v
    rw [hne] at hlook
    simp only [Bool.false_eq_true, if_false] at hlook
    have hmemv : c0 ∈ validCandidates routes :=
      List.mem_filter.mpr ⟨hc0m, hc0v⟩
    constructor
    · rw [hlook]
      simp only [reduceCtorEq, false_iff]
      exact List.ne_nil_of_mem hmemv
    · intro e he
      rw [hlook] at he
      have he' : e = ⟨(scanRoutes d (la, ln) routes).closestPoint,
          (scanRoutes d (la, ln) routes).minDistance⟩ := (Option.some.inj he).symm
      subst he'
      refine ⟨by rw [hcp]; exact hmemv, by rw [hcp, hmd], ?_⟩
      intro c hc
      have hc' := List.mem_filter.mp hc
      rw [hcp]
      exact hmin c hc'.1 hc'.2

/-- Witness for C1 at a concrete site and route. -/
theorem claim_C1_witness :
    (List.lookup siteW.id (findNearestFiberPoints dW [siteW] [routeW]) = none ↔
      validCandidates [routeW] = []) ∧
    (∀ e : NearestEntry,
      List.lookup siteW.id (findNearestFiberPoints dW [siteW] [routeW]) =
          some e →
        e.point ∈ validCandidates [routeW] ∧
        e.distance = (coordDist dW (27, 85) e.point : WithTop ℚ) ∧
        ∀ c ∈ validCandidates [routeW],
          coordDist dW (27, 85) e.point ≤ coordDist dW (27, 85) c) :=
  claim_C1 dW [siteW] [routeW] siteW 27 85 (List.mem_singleton_self siteW)
    (by decide) rfl rfl (by decide) (by decide)

lemma count_fold_coords (cs : List (List JsVal)) : ∀ b : ℕ,
    cs.foldl (fun k c => if validCoord c then k + 1 else k) b =
      b + (cs.filter validCoord).length := by
  induction cs with
  | nil => intro b; simp
  | cons c cs ih =>
      intro b
      rw [List.foldl_cons]
      rw [ih]
      cases hv : validCoord c with
      | true => simp [hv, List.filter_cons]; omega
      | false => simp [hv, List.filter_cons]

lemma count_fold_features (fs : List Feature) : ∀ b : ℕ,
    fs.foldl (fun b f =>
        (featureCoords f).foldl
          (fun k c => if validCoord c then k + 1 else k) b) b =
      b + ((fs.flatMap featureCoords).filter validCoord).length := by
  induction fs with
  | nil => intro b; simp
  | cons f fs ih =>
      intro b
      rw [List.foldl_cons]
      rw [count_fold_coords, ih, List.flatMap_cons, List.filter_append,
        List.length_append]
      omega

lemma count_fold_routes (routes : List LoadedRoute) : ∀ a : ℕ,
    routes.foldl (fun a r =>
        match r.geoJsonData with
        | none => a
        | some g =>
          g.features.foldl (fun b f =>
            (featureCoords f).foldl
              (fun k c => if validCoord c then k + 1 else k) b) a) a =
      a + (validCandidates routes).length := by
  induction routes with
  | nil => intro a; simp [validCandidates, routeCandidates]
  | cons r rs ih =>
      intro a
      have hcand : validCandidates (r :: rs) =
          (routeCoords r).filter validCoord ++ validCandidates rs := by
        simp [validCandidates, routeCandidates, List.flatMap_cons,
          List.filter_append]
      rw [List.foldl_cons]
      cases hg : r.geoJsonData with
      | none =>
          dsimp only
          rw [ih, hcand]
          have hnil : (routeCoords r).filter validCoord = [] := by
            simp [routeCoords, hg]
          rw [hnil]
          simp
      | some g =>
          dsimp only
          rw [count_fold_features, ih, hcand]
          have hco : routeCoords r = g.features.flatMap featureCoords := by
            simp [routeCoords, hg]
          rw [hco, List.length_append]
          omega

/-- C4: the nearest-fiber-point scan is a plain linear scan with no early
exit: the number of distance computations it performs is exactly the
number of eligible sites times the number of valid route coordinates. -/
theorem claim_C4 (sites : List Site) (routes : List LoadedRoute) :
    countDistanceComputations sites routes =
      (sites.countP (fun s => (sitePos s).isSome)) *
        (validCandidates routes).length := by
  have key : ∀ (ss : List Site) (a : ℕ),
      ss.foldl (fun acc site =>
          match sitePos site with
          | none => acc
          | some _ =>
            routes.foldl (fun a r =>
              match r.geoJsonData with
              | none => a
              | some g =>
                g.features.foldl (fun b f =>
                  (featureCoords f).foldl
                    (fun k c => if validCoord c then k + 1 else k) b) a) acc) a =
        a + (ss.countP (fun s => (sitePos s).isSome)) *
          (validCandidates routes).length := by
    intro ss
    induction ss with
    | nil => intro a; simp
    | cons s2 ss ih =>
        intro a
        rw [List.foldl_cons]
        cases hsp : sitePos s2 with
        | none =>
            dsimp only
            rw [ih]
            simp [List.countP_cons, hsp]
        | some sp =>
            dsimp only
            rw [count_fold_routes, ih]
            simp only [List.countP_cons, hsp, Option.isSome_some, if_pos]
            ring_nf
  simpa [countDistanceComputations] using key sites 0

lemma sitePos_none_of_zero (s : Site)
    (h : s.latitude = some 0 ∨ s.longitude = some 0) : sitePos s = none := by
  rcases h with h | h
  · cases hln : s.longitude with
    | none => simp [sitePos, h, hln]
    | some ln => simp [sitePos, h, hln]
  · cases hla : s.latitude with
    | none => simp [sitePos, h, hla]
    | some la => simp [sitePos, h, hla]

/-- C8: a site whose latitude or longitude equals exactly `0` is skipped
by the nearest-fiber-point scan (it gets no entry, whatever the routes
hold) and contributes nothing to path assembly, because the guard tests
truthiness rather than non-nullness. -/
theorem claim_C8 (d : ℚ × ℚ → ℚ × ℚ → ℚ) (sites : List Site)
    (routes : List LoadedRoute) (pre post : List Site) (sel : Option Site)
    (pts : List Point) (s : Site) (k : String)
    (hz : s.latitude = some 0 ∨ s.longitude = some 0)
    (hall : ∀ s2 ∈ sites, s2.id = k →
      s2.latitude = some 0 ∨ s2.longitude = some 0) :
    List.lookup k (findNearestFiberPoints d sites routes) = none ∧
    getAllPoints (pre ++ s :: post) sel pts =
      getAllPoints (pre ++ post) sel pts := by
  constructor
  · exact findNearest_lookup_none d routes sites k
      (fun s2 h2 hid => sitePos_none_of_zero s2 (hall s2 h2 hid))
  · have hs := sitePos_none_of_zero s hz
    simp [getAllPoints, List.filterMap_append, List.filterMap_cons, hs]

/-- Witness for C8 at a concrete zero-latitude site. -/
theorem claim_C8_witness :
    List.lookup siteZW.id (findNearestFiberPoints dW [siteZW] [routeW]) =
      none ∧
    getAllPoints ([siteW] ++ siteZW :: []) none [] =
      getAllPoints ([siteW] ++ []) none [] :=
  claim_C8 dW [siteZW] [routeW] [siteW] [] none [] siteZW siteZW.id
    (Or.inl rfl) (by decide)

/-- C5: `parseKMLData` returns `null` exactly when the input is empty or
whitespace-only, the XML parse yields a `parsererror` element, the
conversion to GeoJSON yields no features (a null result, a missing
features array, or an empty one), or an exception is thrown by the
external parsing calls; for every other input it returns a GeoJSON object
whose features are the converted features (after coordinate
sanitization). -/
theorem claim_C5 (env : KmlEnv) (s : String) :
    (parseKMLData env s = none ↔
      (s.data.isEmpty = true ∨ s.data.all Char.isWhitespace = true) ∨
      env.parseFromString s = .error () ∨
      (∃ doc, env.parseFromString s = .ok doc ∧
        (0 < doc.parserErrorCount ∨
         env.kmlToGeoJson doc = .error () ∨
         env.kmlToGeoJson doc = .ok none ∨
         ∃ raw, env.kmlToGeoJson doc = .ok (some raw) ∧
           (raw.features = none ∨ raw.features = some [])))) ∧
    (∀ (g : GeoJson) (doc : XmlDoc) (raw : RawGeo) (feats : List Feature),
      env.parseFromString s = .ok doc →
      env.kmlToGeoJson doc = .ok (some raw) →
      raw.features = some feats →
      parseKMLData env s = some g →
      g.features = feats.map (sanitizeFeature env.parseFloatJs)) := by
  by_cases hb : (s.data.isEmpty || s.data.all Char.isWhitespace) = true
  · have hnone : parseKMLData env s = none := by simp [parseKMLData, hb]
    refine ⟨⟨fun _ => Or.inl (by simpa using hb), fun _ => hnone⟩, ?_⟩
    intro g doc raw feats _ _ _ h4
    rw [hnone] at h4
    cases h4
  · have hb' : (s.data.isEmpty || s.data.all Char.isWhitespace) = false := by
      revert hb; cases h : (s.data.isEmpty || s.data.all Char.isWhitespace) <;> simp
    cases hp : env.parseFromString s with
    | error e =>
        cases e
        have hnone : parseKMLData env s = none := by
          simp [parseKMLData, hb', hp]
        refine ⟨⟨fun _ => Or.inr (Or.inl rfl), fun _ => hnone⟩, ?_⟩
        intro g doc raw feats h1 _ _ _
        simp at h1
    | ok doc =>
        by_cases hpe : 0 < doc.parserErrorCount
        · have hnone : parseKMLData env s = none := by
            simp [parseKMLData, hb', hp, hpe]
          refine ⟨⟨fun _ => Or.inr (Or.inr ⟨doc, rfl, Or.inl hpe⟩),
            fun _ => hnone⟩, ?_⟩
          intro g doc' raw feats _ _ _ h4
          rw [hnone] at h4
          cases h4
        · cases hg : env.kmlToGeoJson doc with
          | error e2 =>
              cases e2
              have hnone : parseKMLData env s = none := by
                simp [parseKMLData, hb', hp, hpe, hg]
              refine ⟨⟨fun _ => Or.inr (Or.inr ⟨doc, rfl, Or.inr (Or.inl hg)⟩),
                fun _ => hnone⟩, ?_⟩
              intro g doc' raw feats h1 h2 _ _
              injection h1 with hd
              subst hd
              rw [hg] at h2
              cases h2
          | ok oraw =>
              cases oraw with
              | none =>
                  have hnone : parseKMLData env s = none := by
                    simp [parseKMLData, hb', hp, hpe, hg]
                  refine ⟨⟨fun _ =>
                    Or.inr (Or.inr ⟨doc, rfl, Or.inr (Or.inr (Or.inl hg))⟩),
                    fun _ => hnone⟩, ?_⟩
                  intro g doc' raw feats h1 h2 _ _
                  injection h1 with hd
                  subst hd
                  rw [hg] at h2
                  cases h2
              | some raw =>
                  cases hf : raw.features with
                  | none =>
                      have hnone : parseKMLData env s = none := by
                        simp [parseKMLData, hb', hp, hpe, hg, hf]
                      refine ⟨⟨fun _ => Or.inr (Or.inr ⟨doc, rfl,
                        Or.inr (Or.inr (Or.inr ⟨raw, hg, Or.inl hf⟩))⟩),
                        fun _ => hnone⟩, ?_⟩
                      intro g doc' raw' feats h1 h2 h3 _
                      injection h1 with hd
                      subst hd
                      rw [hg] at h2
                      injection h2 with hr
                      injection hr with hr
                      subst hr
                      rw [hf] at h3
                      cases h3
                  | some feats =>
                      cases hfe : feats.isEmpty with
                      | true =>
                          have hfeats : feats = [] := List.isEmpty_iff.mp hfe
                          have hnone : parseKMLData env s = none := by
                            simp [parseKMLData, hb', hp, hpe, hg, hf, hfe]
                          refine ⟨⟨fun _ => Or.inr (Or.inr ⟨doc, rfl,
                            Or.inr (Or.inr (Or.inr ⟨raw, hg,
                              Or.inr (by rw [hf, hfeats])⟩))⟩),
                            fun _ => hnone⟩, ?_⟩
                          intro g doc' raw' feats' _ _ _ h4
                          rw [hnone] at h4
                          cases h4
                      | false =>
                          have hsome : parseKMLData env s =
                              some { features :=
                                       feats.map (sanitizeFeature env.parseFloatJs),
                                     name :=
                                       if jsTruthyStr doc.docName then doc.docName
                                       else raw.propName } := by
                            simp [parseKMLData, hb', hp, hpe, hg, hf, hfe]
                          have hor : s.data.isEmpty = false ∧
                              s.data.all Char.isWhitespace = false := by
                            simpa [Bool.or_eq_false_iff] using hb'
                          constructor
                          · rw [hsome]
                            constructor
                            · intro h; cases h
                            · intro hrhs
                              exfalso
                              rcases hrhs with (h | h) | h | ⟨doc', hdoc', hrest⟩
                              · rw [hor.1] at h; cases h
                              · rw [hor.2] at h; cases h
                              · simp at h
                              · injection hdoc' with hd
                                subst hd
                                rcases hrest with h | h | h | ⟨raw', hraw', hff⟩
                                · exact hpe h
                                · rw [hg] at h; cases h
                                · rw [hg] at h; cases h
                                · rw [hg] at hraw'
                                  injection hraw' with hr
                                  injection hr with hr
                                  subst hr
                                  rcases hff with h | h
                                  · rw [hf] at h; cases h
                                  · rw [hf] at h
                                    injection h with h
                                    subst h
                                    simp at hfe
                          · intro g doc' raw' feats' h1 h2 h3 h4
                            injection h1 with hd
                            subst hd
                            rw [hg] at h2
                            injection h2 with hr
                            injection hr with hr
                            subst hr
                            rw [hf] at h3
                            injection h3 with hfq
                            subst hfq
                            rw [hsome] at h4
                            injection h4 with hgq
                            rw [← hgq]

/-- Witness for C5 at a concrete environment and input. -/
theorem claim_C5_witness :
    geoW.features = featsW.map (sanitizeFeature envW.parseFloatJs) :=
  (claim_C5 envW "kml").2 geoW docW rawW featsW rfl rfl rfl (by decide)

lemma sanitizeLine_sane (pf : String → JsVal) (cs : List (List JsVal)) :
    (sanitizeLine pf cs).all (fun c => c.all JsVal.isFiniteNumber) = true := by
  rw [List.all_eq_true]
  intro c hc
  exact (List.mem_filter.mp hc).2

lemma sanitizePoint_sane (pf : String → JsVal) (c : List JsVal) :
    (sanitizePoint pf c).all JsVal.isFiniteNumber = true := by
  rw [List.all_eq_true]
  intro v hv
  exact (List.mem_filter.mp hv).2

lemma sanitizeGeometry_sane (pf : String → JsVal) (g : Geometry) :
    geomValuesFinite (sanitizeGeometry pf g) = true := by
  cases g with
  | lineString cs => exact sanitizeLine_sane pf cs
  | point c => exact sanitizePoint_sane pf c
  | multiLineString ls =>
      simp only [sanitizeGeometry, geomValuesFinite]
      rw [List.all_eq_true]
      intro l hl
      have hmem := List.mem_filter.mp hl
      rcases List.mem_map.mp hmem.1 with ⟨l0, _, hl0⟩
      rw [Bool.and_eq_true]
      exact ⟨hmem.2, by
        rw [← hl0]
        have := sanitizeLine_sane pf l0
        rw [List.all_eq_true] at this ⊢
        exact fun c hc => this c hc⟩
  | other => rfl

/-- C9: for every input accepted by `parseKMLData` (given that
`parseFloat` returns a number or `NaN`, as JS guarantees), the returned
GeoJSON contains only finite numeric coordinate values in its LineString,
Point and MultiLineString geometries, and no MultiLineString part is left
empty: string numerals are converted, non-finite components are filtered
out, and emptied MultiLineString parts are dropped. -/
theorem claim_C9 (env : KmlEnv) (s : String) (g : GeoJson)
    (_hpf : ∀ t, env.parseFloatJs t = JsVal.nan ∨
      ∃ q, env.parseFloatJs t = JsVal.num q)
    (hparse : parseKMLData env s = some g) :
    geoJsonSane g = true := by
  have hfeats : ∃ feats : List Feature, g.features =
      feats.map (sanitizeFeature env.parseFloatJs) := by
    unfold parseKMLData at hparse
    repeat' split at hparse
    all_goals simp only [Option.some.injEq, reduceCtorEq] at hparse
    all_goals exact ⟨_, (congrArg GeoJson.features hparse).symm⟩
  rcases hfeats with ⟨feats, hfe⟩
  unfold geoJsonSane
  rw [hfe, List.all_eq_true]
  intro f hf
  rcases List.mem_map.mp hf with ⟨f0, _, hf0⟩
  rw [← hf0]
  unfold sanitizeFeature featureSane
  cases f0.geometry with
  | none => rfl
  | some g0 => exact sanitizeGeometry_sane env.parseFloatJs g0

/-- Witness for C9 at a concrete environment and input. -/
theorem claim_C9_witness : geoJsonSane geoW = true :=
  claim_C9 envW "kml" geoW (fun _ => Or.inl rfl) (by decide)

/-- C6: when fiber routes load successfully, a route participates in the
stored (rendered and scanned) route list exactly when its `route_data`
parsed to GeoJSON, and every stored route carries parsed GeoJSON. -/
theorem claim_C6 (env : KmlEnv) (rows : List RouteRow) (st : MapState) :
    (∀ lr, lr ∈ (loadFiberRoutesRun env (.ok rows) st).newState.fiberRoutes →
      lr.geoJsonData.isSome = true) ∧
    (∀ r, r ∈ rows →
      ((∃ lr, lr ∈ (loadFiberRoutesRun env (.ok rows) st).newState.fiberRoutes ∧
          lr.row = r) ↔ (routeGeoJson env r).isSome = true)) := by
  constructor
  · intro lr hlr
    simp only [loadFiberRoutesRun] at hlr
    exact (List.mem_filter.mp hlr).2
  · intro r hr
    constructor
    · rintro ⟨lr, hlr, hrow⟩
      simp only [loadFiberRoutesRun] at hlr
      have hmem := List.mem_filter.mp hlr
      rcases List.mem_map.mp hmem.1 with ⟨r0, _, hr0⟩
      rw [← hr0] at hrow hmem
      simp only at hrow
      rw [← hrow]
      exact hmem.2
    · intro hsome
      refine ⟨⟨r, routeGeoJson env r⟩, ?_, rfl⟩
      simp only [loadFiberRoutesRun]
      exact List.mem_filter.mpr ⟨List.mem_map.mpr ⟨r, hr, rfl⟩, hsome⟩

/-- Witness for C6 at a concrete route list: the route whose KML parses
stays stored, carrying its GeoJSON. -/
theorem claim_C6_witness :
    (LoadedRoute.mk ⟨"r1", "line", some "kml"⟩ (some geoW)).geoJsonData.isSome =
      true :=
  (claim_C6 envW [⟨"r1", "line", some "kml"⟩, ⟨"r2", "none", none⟩]
      ⟨[], [], [], true⟩).1
    (LoadedRoute.mk ⟨"r1", "line", some "kml"⟩ (some geoW)) (by decide)

lemma degreesToRadians_eq (d : ℝ) :
    degreesToRadians d =
      d * (Real.pi / 180) - (jsTrunc (d / 360) : ℝ) * (2 * Real.pi) := by
  unfold degreesToRadians jsRem
  ring

lemma cos_degreesToRadians (d : ℝ) :
    Real.cos (degreesToRadians d) = Real.cos (d * (Real.pi / 180)) := by
  rw [degreesToRadians_eq, Real.cos_sub_int_mul_two_pi]

lemma sin_sq_eq_half_sub_cos (t : ℝ) :
    Real.sin t ^ 2 = (1 - Real.cos (2 * t)) / 2 := by
  have h1 := Real.cos_two_mul t
  have h2 := Real.sin_sq_add_cos_sq t
  linarith

lemma sin_sq_half_degreesToRadians (d : ℝ) :
    Real.sin (degreesToRadians d / 2) ^ 2 =
      (1 - Real.cos (d * (Real.pi / 180))) / 2 := by
  have hrw : degreesToRadians d / 2 =
      d * (Real.pi / 360) - (jsTrunc (d / 360) : ℝ) * Real.pi := by
    rw [degreesToRadians_eq]; ring
  rw [hrw, Real.sin_sub, Real.sin_int_mul_pi]
  have hck : Real.cos ((jsTrunc (d / 360) : ℝ) * Real.pi) ^ 2 = 1 := by
    have h := Real.sin_sq_add_cos_sq ((jsTrunc (d / 360) : ℝ) * Real.pi)
    rw [Real.sin_int_mul_pi] at h
    nlinarith [h]
  have hexp : (Real.sin (d * (Real.pi / 360)) *
        Real.cos ((jsTrunc (d / 360) : ℝ) * Real.pi) -
        Real.cos (d * (Real.pi / 360)) * 0) ^ 2 =
      Real.sin (d * (Real.pi / 360)) ^ 2 *
        Real.cos ((jsTrunc (d / 360) : ℝ) * Real.pi) ^ 2 := by
    ring
  rw [hexp, hck, mul_one, sin_sq_eq_half_sub_cos]
  have h2 : 2 * (d * (Real.pi / 360)) = d * (Real.pi / 180) := by ring
  rw [h2]

lemma sphCos_bounds (p q : ℝ × ℝ) : -1 ≤ sphCos p q ∧ sphCos p q ≤ 1 := by
  unfold sphCos
  set s1 := Real.sin (p.2 * (Real.pi / 180)) with hs1
  set s2 := Real.sin (q.2 * (Real.pi / 180)) with hs2
  set c1 := Real.cos (p.2 * (Real.pi / 180)) with hc1
  set c2 := Real.cos (q.2 * (Real.pi / 180)) with hc2
  set cd := Real.cos ((q.1 - p.1) * (Real.pi / 180)) with hcd
  have h1 : s1 ^ 2 + c1 ^ 2 = 1 := Real.sin_sq_add_cos_sq _
  have h2 : s2 ^ 2 + c2 ^ 2 = 1 := Real.sin_sq_add_cos_sq _
  have hcd1 : -1 ≤ cd := Real.neg_one_le_cos _
  have hcd2 : cd ≤ 1 := Real.cos_le_one _
  have hcd3 : 0 ≤ 1 - cd ^ 2 := by nlinarith [hcd1, hcd2]
  have hterm : 0 ≤ c2 ^ 2 * (1 - cd ^ 2) := mul_nonneg (sq_nonneg c2) hcd3
  have p1 : (s1 ^ 2 + c1 ^ 2 - 1) * (s2 ^ 2 + c2 ^ 2 * cd ^ 2) = 0 := by
    rw [h1]; ring
  have key : (s1 * s2 + c1 * c2 * cd) ^ 2 ≤ 1 := by
    nlinarith [sq_nonneg (s1 * (c2 * cd) - c1 * s2), hterm, p1, h2]
  constructor
  · nlinarith [key, sq_nonneg (s1 * s2 + c1 * c2 * cd + 1)]
  · nlinarith [key, sq_nonneg (s1 * s2 + c1 * c2 * cd - 1)]

lemma havA_eq (p q : ℝ × ℝ) : havA p q = (1 - sphCos p q) / 2 := by
  unfold havA sphCos
  rw [sin_sq_half_degreesToRadians, sin_sq_half_degreesToRadians,
    cos_degreesToRadians, cos_degreesToRadians]
  have hsub : (q.2 - p.2) * (Real.pi / 180) =
      q.2 * (Real.pi / 180) - p.2 * (Real.pi / 180) := by ring
  rw [hsub, Real.cos_sub]
  ring

lemma atan2_sqrt_eq_arcsin {a : ℝ} (h0 : 0 ≤ a) (h1 : a ≤ 1) :
    atan2 (Real.sqrt a) (Real.sqrt (1 - a)) = Real.arcsin (Real.sqrt a) := by
  rcases lt_or_eq_of_le h1 with hlt | heq
  · have hx : 0 < Real.sqrt (1 - a) := Real.sqrt_pos.mpr (by linarith)
    rw [atan2, if_pos hx, Real.arctan_eq_arcsin]
    congr 1
    have hs : Real.sqrt a ^ 2 = a := Real.sq_sqrt h0
    have hx2 : Real.sqrt (1 - a) ^ 2 = 1 - a := Real.sq_sqrt (by linarith)
    have h1a : (1 : ℝ) - a ≠ 0 := ne_of_gt (by linarith)
    have hxne : Real.sqrt (1 - a) ≠ 0 := ne_of_gt hx
    have hkey : 1 + (Real.sqrt a / Real.sqrt (1 - a)) ^ 2 = (1 - a)⁻¹ := by
      rw [div_pow, hs, hx2]
      field_simp
    rw [hkey, Real.sqrt_inv]
    field_simp
  · subst heq
    norm_num [atan2, Real.sqrt_one, Real.arcsin_one, Real.pi_pos]

lemma two_arcsin_sqrt_eq_arccos {c : ℝ} (h1 : -1 ≤ c) (h2 : c ≤ 1) :
    2 * Real.arcsin (Real.sqrt ((1 - c) / 2)) = Real.arccos c := by
  set s := Real.sqrt ((1 - c) / 2) with hsdef
  have hs0 : 0 ≤ s := Real.sqrt_nonneg _
  have hhalf : 0 ≤ (1 - c) / 2 := by linarith
  have hs2 : s ^ 2 = (1 - c) / 2 := Real.sq_sqrt hhalf
  have hs1 : s ≤ 1 := by
    rw [hsdef]
    exact Real.sqrt_le_one.mpr (by linarith)
  set θ := Real.arcsin s with hθdef
  have hθ0 : 0 ≤ θ := Real.arcsin_nonneg.mpr hs0
  have hθ2 : θ ≤ Real.pi / 2 := Real.arcsin_le_pi_div_two s
  have hsin : Real.sin θ = s := Real.sin_arcsin (by linarith) hs1
  have hcos : Real.cos (2 * θ) = c := by
    have hc2 := Real.cos_two_mul θ
    have hsc := Real.sin_sq_add_cos_sq θ
    have hss : Real.sin θ ^ 2 = (1 - c) / 2 := by rw [hsin]; exact hs2
    linarith
  have harc : Real.arccos (Real.cos (2 * θ)) = 2 * θ :=
    Real.arccos_cos (by linarith) (by linarith)
  rw [← hcos, harc]

lemma turfDistance_eq_arccos (p q : ℝ × ℝ) :
    turfDistance p q = 6371.0088 * Real.arccos (sphCos p q) := by
  obtain ⟨hb1, hb2⟩ := sphCos_bounds p q
  have ha : havA p q = (1 - sphCos p q) / 2 := havA_eq p q
  have h0 : 0 ≤ havA p q := by rw [ha]; linarith
  have h1 : havA p q ≤ 1 := by rw [ha]; linarith
  unfold turfDistance
  rw [atan2_sqrt_eq_arcsin h0 h1, ha, two_arcsin_sqrt_eq_arccos hb1 hb2]
  ring

/-- C2 (amended: the distance is the spherical great-circle (haversine)
approximation, not a planar one): `calculateDistanceFromCoordinates`
equals the Earth radius in kilometers times the central angle between the
two positions on the sphere — the arccosine of the spherical
law-of-cosines term. -/
theorem claim_C2 (point1 point2 : ℝ × ℝ) :
    calculateDistanceFromCoordinatesR point1 point2 =
      6371.0088 * Real.arccos
        (Real.sin (point1.1 * (Real.pi / 180)) *
            Real.sin (point2.1 * (Real.pi / 180)) +
          Real.cos (point1.1 * (Real.pi / 180)) *
            Real.cos (point2.1 * (Real.pi / 180)) *
            Real.cos ((point2.2 - point1.2) * (Real.pi / 180))) := by
  unfold calculateDistanceFromCoordinatesR
  rw [turfDistance_eq_arccos]
  rfl

/-- C2 counterexample: the distance is not a planar approximation — it is
not invariant under translating both endpoints by the same
latitude/longitude offset: one degree of longitude at the equator and at
latitude 60° give different distances. -/
theorem claim_C2_counterexample :
    calculateDistanceFromCoordinatesR (0, 0) (0, 1) ≠
      calculateDistanceFromCoordinatesR (60, 0) (60, 1) ∧
    ¬ IsPlanarApprox calculateDistanceFromCoordinatesR := by
  have hK : (6371.0088 : ℝ) ≠ 0 := by norm_num
  have hc1 : sphCos ((0 : ℝ), (0 : ℝ)) ((1 : ℝ), (0 : ℝ)) =
      Real.cos (Real.pi / 180) := by
    unfold sphCos
    norm_num
  have hc2 : sphCos ((0 : ℝ), (60 : ℝ)) ((1 : ℝ), (60 : ℝ)) =
      Real.sin (Real.pi / 3) ^ 2 +
        Real.cos (Real.pi / 3) ^ 2 * Real.cos (Real.pi / 180) := by
    unfold sphCos
    have h60 : (60 : ℝ) * (Real.pi / 180) = Real.pi / 3 := by ring
    rw [h60]
    norm_num
    ring
  have hclt : Real.cos (Real.pi / 180) < 1 := by
    have h := Real.cos_lt_cos_of_nonneg_of_le_pi (le_refl (0 : ℝ))
      (by linarith [Real.pi_pos] : Real.pi / 180 ≤ Real.pi)
      (by linarith [Real.pi_pos] : (0 : ℝ) < Real.pi / 180)
    rw [Real.cos_zero] at h
    exact h
  have hsin3 : 0 < Real.sin (Real.pi / 3) :=
    Real.sin_pos_of_pos_of_lt_pi (by linarith [Real.pi_pos])
      (by linarith [Real.pi_pos])
  have hlt : sphCos ((0 : ℝ), (0 : ℝ)) ((1 : ℝ), (0 : ℝ)) <
      sphCos ((0 : ℝ), (60 : ℝ)) ((1 : ℝ), (60 : ℝ)) := by
    rw [hc1, hc2]
    have hpy := Real.sin_sq_add_cos_sq (Real.pi / 3)
    have hprod : 0 < Real.sin (Real.pi / 3) ^ 2 * (1 - Real.cos (Real.pi / 180)) :=
      mul_pos (pow_pos hsin3 2) (by linarith)
    nlinarith [hpy, hprod]
  have hmem1 : sphCos ((0 : ℝ), (0 : ℝ)) ((1 : ℝ), (0 : ℝ)) ∈
      Set.Icc (-1 : ℝ) 1 :=
    ⟨(sphCos_bounds _ _).1, (sphCos_bounds _ _).2⟩
  have hmem2 : sphCos ((0 : ℝ), (60 : ℝ)) ((1 : ℝ), (60 : ℝ)) ∈
      Set.Icc (-1 : ℝ) 1 :=
    ⟨(sphCos_bounds _ _).1, (sphCos_bounds _ _).2⟩
  have harccos := Real.strictAntiOn_arccos hmem1 hmem2 hlt
  have hd1 : calculateDistanceFromCoordinatesR (0, 0) (0, 1) =
      6371.0088 * Real.arccos (sphCos ((0 : ℝ), (0 : ℝ)) ((1 : ℝ), (0 : ℝ))) := by
    unfold calculateDistanceFromCoordinatesR
    rw [turfDistance_eq_arccos]
  have hd2 : calculateDistanceFromCoordinatesR (60, 0) (60, 1) =
      6371.0088 * Real.arccos (sphCos ((0 : ℝ), (60 : ℝ)) ((1 : ℝ), (60 : ℝ))) := by
    unfold calculateDistanceFromCoordinatesR
    rw [turfDistance_eq_arccos]
  have hne : calculateDistanceFromCoordinatesR (0, 0) (0, 1) ≠
      calculateDistanceFromCoordinatesR (60, 0) (60, 1) := by
    rw [hd1, hd2]
    intro heq
    exact ne_of_gt harccos (mul_left_cancel₀ hK heq)
  exact ⟨hne, fun hpl =>
    hne (hpl (0, 0) (0, 1) (60, 0) (60, 1) (by norm_num) (by norm_num))⟩

end Telecom
